import Mathlib

/-!
Verification of the color-matching core of the shoe-style-matcher app
(src/index.tsx). The analysis-result validation (handleImageAnalysis,
lines 186-216), the Matching Engine (lines 219-257) and the product-tag
construction (handleProductSubmit, lines 96-98) are shallowly embedded
below; the rest of the source is UI plumbing out of scope.
-/

namespace ShoeMatcher

/-- A JavaScript runtime value, as far as the matcher's code observes it:
`undefined`, `null`, booleans, numbers (modelled as integers: the code only
compares lengths and counts), strings, arrays and plain objects. -/
inductive JsVal where
  | undefined : JsVal
  | null : JsVal
  | bool (b : Bool) : JsVal
  | num (n : Int) : JsVal
  | str (s : String) : JsVal
  | arr (elems : List JsVal) : JsVal
  | obj (fields : List (String × JsVal)) : JsVal
deriving Repr

/-- JavaScript truthiness: `undefined`, `null`, `false`, `0` and `""` are
falsy; arrays and objects are always truthy. -/
def jsTruthy : JsVal → Bool
  | .undefined => false
  | .null => false
  | .bool b => b
  | .num n => n != 0
  | .str s => s != ""
  | .arr _ => true
  | .obj _ => true

/-- Property access `v.k` as the code performs it: on an object, the value
stored under the key (later duplicate keys win, as in a parsed JSON object);
on anything else `undefined`. Only the keys `isShoe`, `mainColors` and
`sideColors` are ever accessed, so built-in properties need no model. -/
def getField : JsVal → String → JsVal
  | .obj fields, key => fields.foldl (fun acc kv => if kv.1 = key then kv.2 else acc) .undefined
  | _, _ => .undefined

/-- `typeof v === 'undefined'` for the values `getField` can produce. -/
def isUndef : JsVal → Bool
  | .undefined => true
  | _ => false

/-- The `.length` property: arrays and strings have one; other primitives
yield `undefined` and an object yields its `length` field. -/
def jsLengthVal : JsVal → JsVal
  | .arr elems => .num elems.length
  | .str s => .num s.length
  | .obj fields => getField (.obj fields) "length"
  | _ => .undefined

/-- Strict comparison `v === 0`. -/
def jsStrictEqZero : JsVal → Bool
  | .num n => n == 0
  | _ => false

/-- A destructuring default `const \x7b x = d \x7d = v`: the default applies
exactly when the field is `undefined`. -/
def orDefault (v d : JsVal) : JsVal :=
  match v with
  | .undefined => d
  | w => w

/-- Analysis-side error taxonomy from the spec (section 7). -/
inductive AnalysisError where
  | malformedResponse : AnalysisError
  | inconclusiveAnalysis : AnalysisError
  | notAShoe : AnalysisError
  | noColorsDetected : AnalysisError
  | serviceUnavailable : AnalysisError
deriving Repr, DecidableEq

/-- The normalized color description produced by a successful analysis:
the `mainColors` and `sideColors` values taken from the payload. -/
structure ColorAnalysis where
  mainColors : JsVal
  sideColors : JsVal
deriving Repr

/-- Validation of the parsed analysis payload, handleImageAnalysis lines
196-216: a falsy payload or an `undefined` `isShoe` is inconclusive, a falsy
`isShoe` means no shoe, absent color lists default to empty arrays, and two
lists of length `0` mean no colors were detected. -/
def analyzePayload (analysisResult : JsVal) : Except AnalysisError ColorAnalysis :=
  if !jsTruthy analysisResult || isUndef (getField analysisResult "isShoe") then
    .error .inconclusiveAnalysis
  else if !jsTruthy (getField analysisResult "isShoe") then
    .error .notAShoe
  else
    let mainColors := orDefault (getField analysisResult "mainColors") (.arr [])
    let sideColors := orDefault (getField analysisResult "sideColors") (.arr [])
    if jsStrictEqZero (jsLengthVal mainColors) && jsStrictEqZero (jsLengthVal sideColors) then
      .error .noColorsDetected
    else
      .ok ⟨mainColors, sideColors⟩

/-- A catalog product. `colorTags` is kept as a raw `JsVal` because the
store may return records where it is absent (`undefined`), a non-array, or
an array of arbitrary values; the matcher inspects it dynamically. -/
structure Product where
  id : String
  name : String
  imageSrc : String
  link : String
  colorTags : JsVal
deriving Repr

/-- The one runtime error the Matching Engine can raise: calling
`.toLowerCase()` on a non-string tag. -/
inductive JsError where
  | typeError : JsError
deriving Repr, DecidableEq

/-- `s.toLowerCase()` on a string: character-wise lowercasing (the color
names at play are plain ASCII words). -/
def lowerStr (s : String) : String :=
  ⟨s.data.map Char.toLower⟩

/-- `tag.toLowerCase()`: succeeds on strings, raises a TypeError on any
other value. -/
def jsToLowerCase : JsVal → Except JsError String
  | .str s => .ok (lowerStr s)
  | _ => .error .typeError

/-- `Array.isArray(v)`. -/
def isArrayB : JsVal → Bool
  | .arr _ => true
  | _ => false

/-- The element list of an array value (only consulted behind an
`isArrayB` guard). -/
def arrElems : JsVal → List JsVal
  | .arr elems => elems
  | _ => []

/-- `tags.map(tag => tag.toLowerCase())`: lower-cases every element in
order, raising at the first non-string. -/
def lowerTagsOf : List JsVal → Except JsError (List String)
  | [] => .ok []
  | v :: vs => do
    let s ← jsToLowerCase v
    let rest ← lowerTagsOf vs
    .ok (s :: rest)

/-- Rule 1 predicate (lines 229-243): guard out a missing or non-array
`colorTags`, lower-case the tags, and require at least 3 tag occurrences
that are members of the detected-color set. The JS `Set` is modelled as a
deduplicated list queried by `contains`. -/
def broadCheck (detectedColorsSet : List String) (product : Product) : Except JsError Bool :=
  if !jsTruthy product.colorTags || !isArrayB product.colorTags then
    .ok false
  else do
    let lowerCaseProductTags ← lowerTagsOf (arrElems product.colorTags)
    .ok (decide (3 ≤ lowerCaseProductTags.countP (fun tag => detectedColorsSet.contains tag)))

/-- Rule 2 predicate (lines 246-254): guard out a missing or non-array
`colorTags`, build the set of lower-cased tags, and require every detected
color occurrence to be a member of it. -/
def subsetCheck (lowerCaseDetectedColors : List String) (product : Product) : Except JsError Bool :=
  if !jsTruthy product.colorTags || !isArrayB product.colorTags then
    .ok false
  else do
    let lowerTags ← lowerTagsOf (arrElems product.colorTags)
    let productTagsSet := lowerTags.dedup
    .ok (lowerCaseDetectedColors.all (fun color => productTagsSet.contains color))

/-- `Array.prototype.filter` with a predicate that can raise: keeps the
passing elements in order, propagating the first raised error. -/
def filterE (check : Product → Except JsError Bool) : List Product → Except JsError (List Product)
  | [] => .ok []
  | p :: ps => do
    let b ← check p
    let rest ← filterE check ps
    .ok (if b then p :: rest else rest)

/-- The Matching Engine, handleImageAnalysis lines 219-257: concatenate
main and side colors, lower-case them, and branch on the RAW length of the
concatenated list — `≥ 3` selects the broad-match rule against the
deduplicated detected set, otherwise the exact-subset rule. -/
def matchProducts (mainColors sideColors : List String) (allProducts : List Product) :
    Except JsError (List Product) :=
  let colors := mainColors ++ sideColors
  let lowerCaseDetectedColors := colors.map lowerStr
  let detectedColorsSet := lowerCaseDetectedColors.dedup
  if 3 ≤ lowerCaseDetectedColors.length then
    filterE (broadCheck detectedColorsSet) allProducts
  else
    filterE (subsetCheck lowerCaseDetectedColors) allProducts

/-- The tags of a value that is an array of strings, `none` otherwise. -/
def strTags : List JsVal → Option (List String)
  | [] => some []
  | .str s :: vs => (strTags vs).map (fun ts => s :: ts)
  | _ :: _ => none

/-- A product's tags when `colorTags` is an array made of strings only. -/
def getStrTags (product : Product) : Option (List String) :=
  match product.colorTags with
  | .arr vs => strTags vs
  | _ => none

/-- Well-formedness of a stored product per the data-model invariant
(spec section 3): when `colorTags` is an array, its elements are strings.
Absent or non-array `colorTags` is allowed. -/
def safeTags (product : Product) : Prop :=
  isArrayB product.colorTags = true → (getStrTags product).isSome = true

instance (product : Product) : Decidable (safeTags product) := by
  unfold safeTags; infer_instance

/-- The broad-match inclusion test as a total boolean function on
well-formed products. -/
def broadInclude (detectedColorsSet : List String) (p : Product) : Bool :=
  match getStrTags p with
  | some ts =>
      decide (3 ≤ (ts.map lowerStr).countP (fun tag => detectedColorsSet.contains tag))
  | none => false

/-- The exact-subset inclusion test as a total boolean function on
well-formed products. -/
def subsetInclude (lowerCaseDetectedColors : List String) (p : Product) : Bool :=
  match getStrTags p with
  | some ts =>
      lowerCaseDetectedColors.all (fun color => ((ts.map lowerStr).dedup).contains color)
  | none => false

/-- The boolean inclusion test the Matching Engine applies to each product:
broad rule when the raw detected list has length at least 3, exact-subset
rule otherwise. -/
def includeTest (mainColors sideColors : List String) (p : Product) : Bool :=
  let lowerCaseDetectedColors := (mainColors ++ sideColors).map lowerStr
  if 3 ≤ lowerCaseDetectedColors.length then
    broadInclude lowerCaseDetectedColors.dedup p
  else
    subsetInclude lowerCaseDetectedColors p

/-- `s.split(',')` on the underlying character list: the split pieces in
order, where an input without commas (even the empty input) gives exactly
one piece. -/
def splitCommaAux : List Char → List Char → List (List Char)
  | [], acc => [acc.reverse]
  | c :: cs, acc =>
    if c = ',' then acc.reverse :: splitCommaAux cs []
    else splitCommaAux cs (c :: acc)

/-- `input.split(',')`. -/
def splitComma (input : String) : List String :=
  (splitCommaAux input.data []).map (fun cs => ⟨cs⟩)

/-- `s.trim()`: drop whitespace from both ends. -/
def trimStr (s : String) : String :=
  ⟨((s.data.dropWhile Char.isWhitespace).reverse.dropWhile Char.isWhitespace).reverse⟩

/-- handleProductSubmit line 96/97: split a comma-separated input, trim
each piece, drop the falsy (empty) pieces. -/
def parseColorList (input : String) : List String :=
  ((splitComma input).map trimStr).filter (fun s => s != "")

/-- handleProductSubmit line 98: the `colorTags` sent to the Catalog
Store — parsed main colors followed by parsed side colors. -/
def submittedColorTags (mainColors sideColors : String) : List String :=
  parseColorList mainColors ++ parseColorList sideColors

/-! Bridging lemmas between the dynamic checks and the boolean tests. -/

theorem lowerTagsOf_of_strTags : ∀ {vs : List JsVal} {ts : List String},
    strTags vs = some ts → lowerTagsOf vs = .ok (ts.map lowerStr) := by
  intro vs
  induction vs with
  | nil =>
      intro ts h
      simp only [strTags, Option.some.injEq] at h
      subst h; rfl
  | cons v vs ih =>
      intro ts h
      cases v with
      | str s =>
          simp only [strTags] at h
          obtain ⟨ts', hts', rfl⟩ := Option.map_eq_some'.mp h
          simp [lowerTagsOf, jsToLowerCase, ih hts', Bind.bind, Except.bind]
      | undefined => simp [strTags] at h
      | null => simp [strTags] at h
      | bool b => simp [strTags] at h
      | num n => simp [strTags] at h
      | arr es => simp [strTags] at h
      | obj fs => simp [strTags] at h

theorem broadCheck_not_array {p : Product} (h : isArrayB p.colorTags = false)
    (S : List String) : broadCheck S p = .ok false := by
  unfold broadCheck
  rw [if_pos]
  simp [h]

theorem subsetCheck_not_array {p : Product} (h : isArrayB p.colorTags = false)
    (D : List String) : subsetCheck D p = .ok false := by
  unfold subsetCheck
  rw [if_pos]
  simp [h]

theorem broadCheck_eq_include {p : Product} (hp : safeTags p) (S : List String) :
    broadCheck S p = .ok (broadInclude S p) := by
  cases hTags : p.colorTags with
  | arr vs =>
      have hsome : (getStrTags p).isSome = true := hp (by simp [isArrayB, hTags])
      have hget : getStrTags p = strTags vs := by simp [getStrTags, hTags]
      rw [hget] at hsome
      obtain ⟨ts, hts⟩ := Option.isSome_iff_exists.mp hsome
      unfold broadCheck broadInclude
      rw [hget, hts, hTags]
      simp [jsTruthy, isArrayB, arrElems, lowerTagsOf_of_strTags hts, Bind.bind, Except.bind]
  | undefined =>
      rw [broadCheck_not_array (by simp [isArrayB, hTags])]
      simp [broadInclude, getStrTags, hTags]
  | null =>
      rw [broadCheck_not_array (by simp [isArrayB, hTags])]
      simp [broadInclude, getStrTags, hTags]
  | bool b =>
      rw [broadCheck_not_array (by simp [isArrayB, hTags])]
      simp [broadInclude, getStrTags, hTags]
  | num n =>
      rw [broadCheck_not_array (by simp [isArrayB, hTags])]
      simp [broadInclude, getStrTags, hTags]
  | str s =>
      rw [broadCheck_not_array (by simp [isArrayB, hTags])]
      simp [broadInclude, getStrTags, hTags]
  | obj fs =>
      rw [broadCheck_not_array (by simp [isArrayB, hTags])]
      simp [broadInclude, getStrTags, hTags]

theorem subsetCheck_eq_include {p : Product} (hp : safeTags p) (D : List String) :
    subsetCheck D p = .ok (subsetInclude D p) := by
  cases hTags : p.colorTags with
  | arr vs =>
      have hsome : (getStrTags p).isSome = true := hp (by simp [isArrayB, hTags])
      have hget : getStrTags p = strTags vs := by simp [getStrTags, hTags]
      rw [hget] at hsome
      obtain ⟨ts, hts⟩ := Option.isSome_iff_exists.mp hsome
      unfold subsetCheck subsetInclude
      rw [hget, hts, hTags]
      simp [jsTruthy, isArrayB, arrElems, lowerTagsOf_of_strTags hts, Bind.bind, Except.bind]
  | undefined =>
      rw [subsetCheck_not_array (by simp [isArrayB, hTags])]
      simp [subsetInclude, getStrTags, hTags]
  | null =>
      rw [subsetCheck_not_array (by simp [isArrayB, hTags])]
      simp [subsetInclude, getStrTags, hTags]
  | bool b =>
      rw [subsetCheck_not_array (by simp [isArrayB, hTags])]
      simp [subsetInclude, getStrTags, hTags]
  | num n =>
      rw [subsetCheck_not_array (by simp [isArrayB, hTags])]
      simp [subsetInclude, getStrTags, hTags]
  | str s =>
      rw [subsetCheck_not_array (by simp [isArrayB, hTags])]
      simp [subsetInclude, getStrTags, hTags]
  | obj fs =>
      rw [subsetCheck_not_array (by simp [isArrayB, hTags])]
      simp [subsetInclude, getStrTags, hTags]

theorem filterE_ok_of {check : Product → Except JsError Bool} (f : Product → Bool) :
    ∀ {ps : List Product}, (∀ p ∈ ps, check p = .ok (f p)) →
      filterE check ps = .ok (ps.filter f) := by
  intro ps
  induction ps with
  | nil => intro _; rfl
  | cons p ps ih =>
      intro h
      have hp := h p (by simp)
      have hrest := ih (fun q hq => h q (by simp [hq]))
      simp only [filterE, hp, hrest, Bind.bind, Except.bind, List.filter_cons]

theorem mem_of_filterE_ok {check : Product → Except JsError Bool} :
    ∀ {ps res : List Product}, filterE check ps = .ok res →
      ∀ {q : Product}, q ∈ res → check q = .ok true ∧ q ∈ ps := by
  intro ps
  induction ps with
  | nil =>
      intro res h q hq
      simp only [filterE, Except.ok.injEq] at h
      subst h
      simp at hq
  | cons p ps ih =>
      intro res h q hq
      simp only [filterE, Bind.bind] at h
      cases hc : check p with
      | error e => rw [hc] at h; simp [Except.bind] at h
      | ok b =>
          rw [hc] at h
          cases hr : filterE check ps with
          | error e => rw [hr] at h; simp [Except.bind] at h
          | ok rest =>
              rw [hr] at h
              simp only [Except.bind, Except.ok.injEq] at h
              subst h
              cases b with
              | true =>
                  simp only [if_pos rfl] at hq
                  rcases List.mem_cons.mp hq with hq | hq
                  · subst hq; exact ⟨hc, by simp⟩
                  · obtain ⟨h1, h2⟩ := ih hr hq
                    exact ⟨h1, by simp [h2]⟩
              | false =>
                  rw [if_neg (by simp)] at hq
                  obtain ⟨h1, h2⟩ := ih hr hq
                  exact ⟨h1, by simp [h2]⟩

theorem matchProducts_eq_filter (mainColors sideColors : List String)
    (catalog : List Product) (hwf : ∀ p ∈ catalog, safeTags p) :
    matchProducts mainColors sideColors catalog =
      .ok (catalog.filter (includeTest mainColors sideColors)) := by
  unfold matchProducts
  by_cases hlen : 3 ≤ ((mainColors ++ sideColors).map lowerStr).length
  · rw [if_pos hlen]
    apply filterE_ok_of
    intro p hp
    rw [broadCheck_eq_include (hwf p hp)]
    unfold includeTest
    rw [if_pos hlen]
  · rw [if_neg hlen]
    apply filterE_ok_of
    intro p hp
    rw [subsetCheck_eq_include (hwf p hp)]
    unfold includeTest
    rw [if_neg hlen]

theorem matchProducts_nil_catalog (mainColors sideColors : List String) :
    matchProducts mainColors sideColors [] = .ok [] := by
  unfold matchProducts
  by_cases hlen : 3 ≤ ((mainColors ++ sideColors).map lowerStr).length
  · rw [if_pos hlen]; rfl
  · rw [if_neg hlen]; rfl

theorem contains_dedup (l : List String) (a : String) :
    (l.dedup).contains a = l.contains a := by
  by_cases h : a ∈ l
  · simp [List.elem_eq_mem, h, List.mem_dedup]
  · simp [List.elem_eq_mem, h, List.mem_dedup]

theorem getStrTags_none_of_not_array {p : Product} (h : isArrayB p.colorTags = false) :
    getStrTags p = none := by
  unfold getStrTags
  cases hTags : p.colorTags with
  | arr vs => rw [hTags] at h; simp [isArrayB] at h
  | undefined => rfl
  | null => rfl
  | bool b => rfl
  | num n => rfl
  | str s => rfl
  | obj fs => rfl

theorem includeTest_false_of_not_array {p : Product} (h : isArrayB p.colorTags = false)
    (mainColors sideColors : List String) : includeTest mainColors sideColors p = false := by
  unfold includeTest broadInclude subsetInclude
  rw [getStrTags_none_of_not_array h]
  by_cases hlen : 3 ≤ ((mainColors ++ sideColors).map lowerStr).length
  · rw [if_pos hlen]
  · rw [if_neg hlen]

theorem isUndef_eq_true_iff (v : JsVal) : isUndef v = true ↔ v = .undefined := by
  cases v <;> simp [isUndef]

theorem strictEqZero_lengthVal_arr (elems : List JsVal) :
    jsStrictEqZero (jsLengthVal (.arr elems)) = elems.isEmpty := by
  cases elems with
  | nil => simp [jsLengthVal, jsStrictEqZero, List.isEmpty]
  | cons c cs =>
      simp [jsLengthVal, jsStrictEqZero, List.isEmpty]
      omega

/-! Claim theorems. -/

/-- C1: Broad match rule — for every product `P` (with string color tags
`ts`) in a well-formed catalog and every detected color list whose
lower-cased length is at least 3, the match result includes `P` if and only
if at least 3 occurrences of `P`'s tags lower-case into members of the
deduplicated lower-cased detected-color set; the count is per tag
occurrence, not per unique tag. -/
theorem broad_match_rule (mainColors sideColors : List String) (catalog : List Product)
    (P : Product) (ts : List String)
    (hwf : ∀ p ∈ catalog, safeTags p)
    (hP : P ∈ catalog)
    (hts : getStrTags P = some ts)
    (hlen : 3 ≤ ((mainColors ++ sideColors).map lowerStr).length) :
    ∃ res, matchProducts mainColors sideColors catalog = .ok res ∧
      (P ∈ res ↔ 3 ≤ (ts.map lowerStr).countP
        (fun tag => (((mainColors ++ sideColors).map lowerStr).dedup).contains tag)) := by
  refine ⟨_, matchProducts_eq_filter _ _ _ hwf, ?_⟩
  rw [List.mem_filter]
  simp only [includeTest, if_pos hlen, broadInclude, hts]
  constructor
  · rintro ⟨-, hinc⟩
    exact of_decide_eq_true hinc
  · intro hcount
    exact ⟨hP, decide_eq_true hcount⟩

/-- C1 witness: a product tagged black/white/red against the detected list
Black, White, Red (broad rule, count 3). -/
theorem broad_match_rule_example :
    ∃ res, matchProducts ["Black", "White", "Red"] []
        [⟨"1", "A", "img", "link", .arr [.str "black", .str "white", .str "red"]⟩] = .ok res ∧
      ((⟨"1", "A", "img", "link", .arr [.str "black", .str "white", .str "red"]⟩ : Product) ∈ res ↔
        3 ≤ (["black", "white", "red"].map lowerStr).countP
          (fun tag => (((["Black", "White", "Red"] ++ ([] : List String)).map
            lowerStr).dedup).contains tag)) :=
  broad_match_rule ["Black", "White", "Red"] [] _ _ ["black", "white", "red"]
    (by decide) (by simp) rfl (by decide)

/-- C2: Exact subset rule — for every product `P` (with string color tags
`ts`) in a well-formed catalog and every detected color list of lower-cased
length below 3, the match result includes `P` if and only if every
occurrence of the lower-cased detected list is a member of the set of
`P`'s lower-cased tags. -/
theorem exact_subset_rule (mainColors sideColors : List String) (catalog : List Product)
    (P : Product) (ts : List String)
    (hwf : ∀ p ∈ catalog, safeTags p)
    (hP : P ∈ catalog)
    (hts : getStrTags P = some ts)
    (hlen : ((mainColors ++ sideColors).map lowerStr).length < 3) :
    ∃ res, matchProducts mainColors sideColors catalog = .ok res ∧
      (P ∈ res ↔ ∀ color ∈ (mainColors ++ sideColors).map lowerStr,
        color ∈ ts.map lowerStr) := by
  refine ⟨_, matchProducts_eq_filter _ _ _ hwf, ?_⟩
  rw [List.mem_filter]
  simp only [includeTest, if_neg (Nat.not_le.mpr hlen), subsetInclude, hts]
  constructor
  · rintro ⟨-, hinc⟩
    intro color hc
    have := (List.all_eq_true.mp hinc) color hc
    rw [contains_dedup] at this
    simpa [List.elem_eq_mem] using this
  · intro hsub
    refine ⟨hP, List.all_eq_true.mpr ?_⟩
    intro color hc
    rw [contains_dedup]
    simpa [List.elem_eq_mem] using hsub color hc

/-- C2 witness: detected list with the single color Teal (exact rule)
against a teal/black product. -/
theorem exact_subset_rule_example :
    ∃ res, matchProducts ["Teal"] []
        [⟨"1", "A", "img", "link", .arr [.str "teal", .str "black"]⟩] = .ok res ∧
      ((⟨"1", "A", "img", "link", .arr [.str "teal", .str "black"]⟩ : Product) ∈ res ↔
        ∀ color ∈ (["Teal"] ++ ([] : List String)).map lowerStr,
          color ∈ ["teal", "black"].map lowerStr) :=
  exact_subset_rule ["Teal"] [] _ _ ["teal", "black"] (by decide) (by simp) rfl (by decide)

/-- C3: Branch selection threshold — the rule applied is decided by the raw
length of the concatenated detected list, never by distinct-color count:
length at least 3 selects the broad rule, length below 3 the subset rule,
and a length-3 list with fewer than 3 distinct (lower-cased) colors still
selects the broad rule. -/
theorem branch_threshold_raw_length (mainColors sideColors : List String)
    (catalog : List Product) :
    (3 ≤ (mainColors ++ sideColors).length →
      matchProducts mainColors sideColors catalog =
        filterE (broadCheck (((mainColors ++ sideColors).map lowerStr).dedup)) catalog) ∧
    ((mainColors ++ sideColors).length < 3 →
      matchProducts mainColors sideColors catalog =
        filterE (subsetCheck ((mainColors ++ sideColors).map lowerStr)) catalog) ∧
    (3 ≤ (mainColors ++ sideColors).length →
      (((mainColors ++ sideColors).map lowerStr).dedup).length < 3 →
      matchProducts mainColors sideColors catalog =
        filterE (broadCheck (((mainColors ++ sideColors).map lowerStr).dedup)) catalog) := by
  refine ⟨?_, ?_, ?_⟩
  · intro h
    unfold matchProducts
    rw [if_pos (by simpa using h)]
  · intro h
    unfold matchProducts
    rw [if_neg (by simpa using Nat.not_le.mpr h)]
  · intro h _
    unfold matchProducts
    rw [if_pos (by simpa using h)]

/-- C3 witness: the detected list red, red, red has raw length 3 but only
one distinct color; the broad rule applies and a product tagged just red is
rejected (1 common tag, below 3), where the subset rule would have
accepted it. -/
theorem branch_threshold_raw_length_example :
    (((["red", "red", "red"] ++ ([] : List String)).map lowerStr).dedup).length < 3 ∧
    matchProducts ["red", "red", "red"] []
        [⟨"1", "A", "img", "link", .arr [.str "red"]⟩] =
      filterE (broadCheck (((["red", "red", "red"] ++ ([] : List String)).map
          lowerStr).dedup))
        [⟨"1", "A", "img", "link", .arr [.str "red"]⟩] ∧
    matchProducts ["red", "red", "red"] []
        [⟨"1", "A", "img", "link", .arr [.str "red"]⟩] = .ok [] :=
  ⟨by decide,
   (branch_threshold_raw_length ["red", "red", "red"] [] _).2.2 (by decide) (by decide),
   rfl⟩

/-- C4 counterexample: a product whose `colorTags` is an array containing
the number `5` makes the matching computation raise a TypeError (from
`tag.toLowerCase()`), so the engine is NOT total over arrays of arbitrary
values as the claim states. -/
theorem matching_raises_on_nonstring_tag :
    matchProducts ["red"] [] [⟨"1", "Bad", "img", "link", .arr [.num 5]⟩] =
      .error .typeError := rfl

/-- C4 (amended): over catalogs satisfying the data-model invariant — when
`colorTags` is an array its elements are strings; it may freely be absent
or a non-array value — the matching computation always terminates with a
result, and a product whose `colorTags` is missing or not an array is never
in that result. -/
theorem matching_total_on_invariant (mainColors sideColors : List String)
    (catalog : List Product)
    (hwf : ∀ p ∈ catalog, safeTags p) :
    (∃ res, matchProducts mainColors sideColors catalog = .ok res) ∧
    (∀ P ∈ catalog, isArrayB P.colorTags = false →
      ∀ res, matchProducts mainColors sideColors catalog = .ok res → P ∉ res) := by
  constructor
  · exact ⟨_, matchProducts_eq_filter _ _ _ hwf⟩
  · intro P _ hbad res hres hmem
    rw [matchProducts_eq_filter _ _ _ hwf] at hres
    injection hres with hres
    subst hres
    have := (List.mem_filter.mp hmem).2
    rw [includeTest_false_of_not_array hbad] at this
    exact Bool.false_ne_true this

/-- C4 witness: a catalog mixing a string-tagged product, a product without
`colorTags` and a product with a non-array `colorTags`; matching succeeds
and omits the malformed two. -/
theorem matching_total_on_invariant_example :
    (∃ res, matchProducts ["red"] []
        [⟨"1", "A", "img", "link", .arr [.str "red"]⟩,
         ⟨"2", "B", "img", "link", .undefined⟩,
         ⟨"3", "C", "img", "link", .str "red"⟩] = .ok res) ∧
    (∀ P ∈ ([⟨"1", "A", "img", "link", .arr [.str "red"]⟩,
         ⟨"2", "B", "img", "link", .undefined⟩,
         ⟨"3", "C", "img", "link", .str "red"⟩] : List Product),
      isArrayB P.colorTags = false →
      ∀ res, matchProducts ["red"] []
        [⟨"1", "A", "img", "link", .arr [.str "red"]⟩,
         ⟨"2", "B", "img", "link", .undefined⟩,
         ⟨"3", "C", "img", "link", .str "red"⟩] = .ok res → P ∉ res) :=
  matching_total_on_invariant ["red"] [] _ (by decide)

/-- C5 counterexample: the payload whose `isShoe` field is the number `0`
has no boolean `isShoe`, yet the analysis does not fail with
`InconclusiveAnalysis` — it proceeds past the presence check and fails with
`NotAShoe` by truthiness. -/
theorem nonboolean_isShoe_not_inconclusive :
    analyzePayload (.obj [("isShoe", .num 0)]) = .error .notAShoe ∧
    AnalysisError.notAShoe ≠ AnalysisError.inconclusiveAnalysis :=
  ⟨rfl, by decide⟩

/-- C5 (amended): the analysis fails with `InconclusiveAnalysis` exactly
when the parsed payload is falsy or its `isShoe` field is `undefined`
(absent); any payload with a present `isShoe` of whatever type proceeds
past this check, its truthiness then deciding between `NotAShoe` and the
color checks. -/
theorem inconclusive_iff_isShoe_undefined (payload : JsVal) :
    analyzePayload payload = .error .inconclusiveAnalysis ↔
      (jsTruthy payload = false ∨ getField payload "isShoe" = .undefined) := by
  unfold analyzePayload
  by_cases h1 : (!jsTruthy payload || isUndef (getField payload "isShoe")) = true
  · rw [if_pos h1]
    simp only [Bool.or_eq_true, Bool.not_eq_true'] at h1
    rcases h1 with h1 | h1
    · exact ⟨fun _ => Or.inl h1, fun _ => rfl⟩
    · exact ⟨fun _ => Or.inr ((isUndef_eq_true_iff _).mp h1), fun _ => rfl⟩
  · rw [if_neg h1]
    simp only [Bool.or_eq_true, Bool.not_eq_true', not_or, Bool.not_eq_false] at h1
    obtain ⟨htru, hundef⟩ := h1
    constructor
    · intro hcontra
      by_cases h2 : (!jsTruthy (getField payload "isShoe")) = true
      · rw [if_pos h2] at hcontra
        exact absurd (Except.error.inj hcontra) (by decide)
      · rw [if_neg h2] at hcontra
        by_cases h3 : (jsStrictEqZero (jsLengthVal
            (orDefault (getField payload "mainColors") (.arr []))) &&
          jsStrictEqZero (jsLengthVal
            (orDefault (getField payload "sideColors") (.arr [])))) = true
        · rw [if_pos h3] at hcontra
          exact absurd (Except.error.inj hcontra) (by decide)
        · rw [if_neg h3] at hcontra
          exact Except.noConfusion hcontra
    · intro h
      rcases h with h | h
      · rw [h] at htru; exact absurd htru (by decide)
      · rw [h] at hundef; exact absurd rfl hundef

/-- C5 (amended) witness: the falsy payload `null` is inconclusive. -/
theorem inconclusive_iff_isShoe_undefined_example :
    analyzePayload .null = .error .inconclusiveAnalysis ↔
      (jsTruthy .null = false ∨ getField .null "isShoe" = .undefined) :=
  inconclusive_iff_isShoe_undefined .null

/-- C6: a product whose `colorTags` is missing or not an array fails both
branch predicates (it contributes a `false` inclusion answer) and is absent
from every successful match result, for every detected color list. -/
theorem malformed_tags_never_match (mainColors sideColors : List String)
    (catalog : List Product) (P : Product)
    (hbad : isArrayB P.colorTags = false)
    (_hP : P ∈ catalog) :
    (∀ S, broadCheck S P = .ok false) ∧
    (∀ D, subsetCheck D P = .ok false) ∧
    (∀ res, matchProducts mainColors sideColors catalog = .ok res → P ∉ res) := by
  refine ⟨fun S => broadCheck_not_array hbad S, fun D => subsetCheck_not_array hbad D, ?_⟩
  intro res hres hmem
  unfold matchProducts at hres
  by_cases hlen : 3 ≤ ((mainColors ++ sideColors).map lowerStr).length
  · rw [if_pos hlen] at hres
    have := (mem_of_filterE_ok hres hmem).1
    rw [broadCheck_not_array hbad] at this
    exact absurd (Except.ok.inj this) (by decide)
  · rw [if_neg hlen] at hres
    have := (mem_of_filterE_ok hres hmem).1
    rw [subsetCheck_not_array hbad] at this
    exact absurd (Except.ok.inj this) (by decide)

/-- C6 witness: a product with absent tags, in a catalog next to a tagged
one, is excluded for the detected list red. -/
theorem malformed_tags_never_match_example :
    (∀ S, broadCheck S (⟨"2", "B", "img", "link", .undefined⟩ : Product) = .ok false) ∧
    (∀ D, subsetCheck D (⟨"2", "B", "img", "link", .undefined⟩ : Product) = .ok false) ∧
    (∀ res, matchProducts ["red"] []
        [⟨"1", "A", "img", "link", .arr [.str "red"]⟩,
         ⟨"2", "B", "img", "link", .undefined⟩] = .ok res →
      (⟨"2", "B", "img", "link", .undefined⟩ : Product) ∉ res) :=
  malformed_tags_never_match ["red"] [] _ _ rfl (by simp)

/-- C7: with an empty detected color list the exact-subset branch applies
vacuously, so over a catalog respecting the data-model invariant the match
result is exactly the products whose `colorTags` is an array (empty arrays
included), in order — products with missing or non-array `colorTags` being
the only exclusions. -/
theorem empty_detected_matches_all_tagged (catalog : List Product)
    (hwf : ∀ p ∈ catalog, safeTags p) :
    matchProducts [] [] catalog =
      .ok (catalog.filter (fun p => isArrayB p.colorTags)) := by
  rw [matchProducts_eq_filter _ _ _ hwf]
  congr 1
  apply List.filter_congr
  intro p hp
  have hsafe := hwf p hp
  unfold includeTest
  simp only [List.nil_append, List.map_nil, List.length_nil]
  rw [if_neg (by decide)]
  unfold subsetInclude
  cases harr : isArrayB p.colorTags with
  | false => rw [getStrTags_none_of_not_array harr]
  | true =>
      obtain ⟨ts, hts⟩ := Option.isSome_iff_exists.mp (hsafe harr)
      rw [hts]
      simp

/-- C7 witness: empty detected list over a catalog holding a product with
an empty tag array, one with tags, one without `colorTags` and one with a
string-valued `colorTags`: the first two are returned, in order. -/
theorem empty_detected_matches_all_tagged_example :
    matchProducts [] []
        [⟨"1", "A", "img", "link", .arr []⟩,
         ⟨"2", "B", "img", "link", .arr [.str "red"]⟩,
         ⟨"3", "C", "img", "link", .undefined⟩,
         ⟨"4", "D", "img", "link", .str "red"⟩] =
      .ok ([⟨"1", "A", "img", "link", .arr []⟩,
         ⟨"2", "B", "img", "link", .arr [.str "red"]⟩,
         ⟨"3", "C", "img", "link", .undefined⟩,
         ⟨"4", "D", "img", "link", .str "red"⟩].filter
          (fun p => isArrayB p.colorTags)) :=
  empty_detected_matches_all_tagged _ (by decide)

/-- C8: for a payload with `isShoe` equal to `true` whose color fields are
each either absent or an array, the absent fields default to the empty
array; if both resulting lists are empty the analysis fails with
`NoColorsDetected`, otherwise it succeeds with a `ColorAnalysis` carrying
exactly those two lists. -/
theorem analysis_defaults_and_success (payload : JsVal) (ms ss : List JsVal)
    (hShoe : getField payload "isShoe" = .bool true)
    (hM : orDefault (getField payload "mainColors") (.arr []) = .arr ms)
    (hS : orDefault (getField payload "sideColors") (.arr []) = .arr ss) :
    (getField payload "mainColors" = .undefined → ms = []) ∧
    (getField payload "sideColors" = .undefined → ss = []) ∧
    analyzePayload payload =
      (if ms.isEmpty && ss.isEmpty then .error .noColorsDetected
       else .ok ⟨.arr ms, .arr ss⟩) := by
  have htru : jsTruthy payload = true := by
    cases payload with
    | obj fields => rfl
    | undefined => simp [getField] at hShoe
    | null => simp [getField] at hShoe
    | bool b => simp [getField] at hShoe
    | num n => simp [getField] at hShoe
    | str s => simp [getField] at hShoe
    | arr elems => simp [getField] at hShoe
  refine ⟨?_, ?_, ?_⟩
  · intro h
    rw [h] at hM
    have : JsVal.arr [] = JsVal.arr ms := by simpa [orDefault] using hM
    exact (JsVal.arr.inj this).symm
  · intro h
    rw [h] at hS
    have : JsVal.arr [] = JsVal.arr ss := by simpa [orDefault] using hS
    exact (JsVal.arr.inj this).symm
  · unfold analyzePayload
    rw [htru, hShoe]
    simp only [isUndef, jsTruthy, Bool.not_true, Bool.false_or, Bool.or_false, if_false]
    rw [hM, hS, strictEqZero_lengthVal_arr, strictEqZero_lengthVal_arr]
    simp

/-- C8 witness: `isShoe` true with one main color Red and no `sideColors`
field: the analysis succeeds carrying the Red list and the defaulted empty
list. -/
theorem analysis_defaults_and_success_example :
    analyzePayload (.obj [("isShoe", .bool true), ("mainColors", .arr [.str "Red"])]) =
      .ok ⟨.arr [.str "Red"], .arr []⟩ :=
  ((analysis_defaults_and_success
      (.obj [("isShoe", .bool true), ("mainColors", .arr [.str "Red"])])
      [.str "Red"] [] rfl rfl rfl).2.2).trans rfl

/-- C9: the Matching Engine is a filter — over a catalog respecting the
data-model invariant the output is the subsequence of the catalog holding
exactly the products passing the boolean inclusion test, in catalog order
with no reordering or duplication, and the empty catalog always yields the
empty result. -/
theorem match_is_filter (mainColors sideColors : List String) (catalog : List Product)
    (hwf : ∀ p ∈ catalog, safeTags p) :
    matchProducts mainColors sideColors catalog =
      .ok (catalog.filter (includeTest mainColors sideColors)) ∧
    (∀ res, matchProducts mainColors sideColors catalog = .ok res →
      List.Sublist res catalog) ∧
    matchProducts mainColors sideColors [] = .ok [] := by
  refine ⟨matchProducts_eq_filter _ _ _ hwf, ?_, matchProducts_nil_catalog _ _⟩
  intro res hres
  rw [matchProducts_eq_filter _ _ _ hwf] at hres
  injection hres with hres
  subst hres
  exact List.filter_sublist _

/-- C9 witness: the broad rule over a two-product catalog returns the
filtered subsequence. -/
theorem match_is_filter_example :
    matchProducts ["black", "white", "red"] []
        [⟨"1", "A", "img", "link", .arr [.str "black", .str "white"]⟩,
         ⟨"2", "B", "img", "link", .arr [.str "black", .str "white", .str "red"]⟩] =
      .ok ([⟨"1", "A", "img", "link", .arr [.str "black", .str "white"]⟩,
         ⟨"2", "B", "img", "link", .arr [.str "black", .str "white", .str "red"]⟩].filter
          (includeTest ["black", "white", "red"] [])) :=
  (match_is_filter ["black", "white", "red"] [] _ (by decide)).1

/-- C10: the `colorTags` sent to the Catalog Store on product submission
are the main-colors input split on commas, each piece trimmed, empty pieces
dropped, followed in order by the side-colors input processed the same
way; every submitted tag is a non-empty trimmed piece, and an input all of
whose pieces trim to empty (a whitespace-only or empty input) contributes
no tags. -/
theorem submitted_tags_spec (mainColors sideColors : String) :
    submittedColorTags mainColors sideColors =
      ((splitComma mainColors).map trimStr).filter (fun s => s != "") ++
      ((splitComma sideColors).map trimStr).filter (fun s => s != "") ∧
    (∀ t ∈ submittedColorTags mainColors sideColors,
      t ≠ "" ∧ ∃ piece ∈ splitComma mainColors ++ splitComma sideColors, t = trimStr piece) ∧
    (∀ input : String, (∀ piece ∈ splitComma input, trimStr piece = "") →
      parseColorList input = []) := by
  refine ⟨rfl, ?_, ?_⟩
  · intro t ht
    unfold submittedColorTags parseColorList at ht
    rcases List.mem_append.mp ht with h | h
    · have h2 := List.mem_filter.mp h
      obtain ⟨piece, hpiece, rfl⟩ := List.mem_map.mp h2.1
      have hne : trimStr piece ≠ "" := by simpa using h2.2
      exact ⟨hne, piece, List.mem_append.mpr (Or.inl hpiece), rfl⟩
    · have h2 := List.mem_filter.mp h
      obtain ⟨piece, hpiece, rfl⟩ := List.mem_map.mp h2.1
      have hne : trimStr piece ≠ "" := by simpa using h2.2
      exact ⟨hne, piece, List.mem_append.mpr (Or.inr hpiece), rfl⟩
  · intro input h
    unfold parseColorList
    rw [List.filter_eq_nil_iff]
    intro a ha
    obtain ⟨piece, hpiece, rfl⟩ := List.mem_map.mp ha
    simp [h piece hpiece]

/-- C10 witness: the inputs containing extra spaces, an empty piece and a
whitespace-only side field produce exactly the tags Red and blue. -/
theorem submitted_tags_spec_example :
    (submittedColorTags " Red , blue ,, " "  " =
      ((splitComma " Red , blue ,, ").map trimStr).filter (fun s => s != "") ++
      ((splitComma "  ").map trimStr).filter (fun s => s != "")) ∧
    submittedColorTags " Red , blue ,, " "  " = ["Red", "blue"] :=
  ⟨(submitted_tags_spec " Red , blue ,, " "  ").1, by decide⟩

end ShoeMatcher
